import Mathlib

/-!
Verification development for the caching HTTP/1.x forward proxy
(web_proxy).  The definitions below are a shallow embedding of the
C++ sources (http.cpp, connection.cpp, cache.hpp): strings are byte
lists, std::chrono time points and durations are integers (clock
ticks), and the stateful parser is explicit state passing.
-/

/-- Byte strings of the C++ code are modelled as lists of characters. -/
abbrev Str := List Char

/-- Conversion from a Lean string literal to the `Str` model. -/
def str (s : String) : Str := s.data

/-- Whitespace test of the C locale `isspace`, used by `std::ws` and
stream extraction. -/
def isCppWs (c : Char) : Bool :=
  c = ' ' || c = '\t' || c = '\n' || c = '\r' || c = '\x0b' || c = '\x0c'

/-- Split a list at the first character satisfying `p`: returns the
prefix of characters not satisfying `p` and the remaining suffix
(models `find_first_of` style scans). -/
def spanNot (p : Char → Bool) : Str → Str × Str
  | [] => ([], [])
  | c :: cs =>
    if p c then ([], c :: cs)
    else
      let r := spanNot p cs
      (c :: r.1, r.2)

/-- The suffix returned by `spanNot` is empty or starts with a
character satisfying `p`. -/
theorem spanNot_snd_head (p : Char → Bool) (l : Str) :
    (spanNot p l).2 = [] ∨ ∃ c cs, (spanNot p l).2 = c :: cs ∧ p c = true := by
  induction l with
  | nil => left; rfl
  | cons c cs ih =>
    by_cases h : p c = true
    · right; exact ⟨c, cs, by simp [spanNot, h], h⟩
    · simpa [spanNot, h] using ih

/-- Models `std::getline(is, line)`: fails on an empty stream,
otherwise consumes up to and including the first newline and returns
the line without it. -/
def getline (s : Str) : Option (Str × Str) :=
  match s with
  | [] => none
  | _ =>
    let r := spanNot (fun c => c = '\n') s
    match r.2 with
    | [] => some (r.1, [])
    | _ :: rest => some (r.1, rest)

/-- Numeric value of a decimal digit string. -/
def natOfDigits : Str → Nat → Nat
  | [], acc => acc
  | c :: cs, acc => natOfDigits cs (acc * 10 + (c.toNat - '0'.toNat))

/-- Numeric value of a hexadecimal digit string. -/
def hexDigitVal (c : Char) : Nat :=
  if c.isDigit then c.toNat - '0'.toNat
  else if 'a' ≤ c ∧ c ≤ 'f' then c.toNat - 'a'.toNat + 10
  else c.toNat - 'A'.toNat + 10

def natOfHexDigits : Str → Nat → Nat
  | [], acc => acc
  | c :: cs, acc => natOfHexDigits cs (acc * 16 + hexDigitVal c)

def isHexDigit (c : Char) : Bool :=
  c.isDigit || ('a' ≤ c && c ≤ 'f') || ('A' ≤ c && c ≤ 'F')

/-- Models `istream >> (size_t)` (decimal): skip whitespace, optional
sign, then digits.  Returns the success flag of the stream and the
value stored into the variable: on success the (wrapped) value, on a
digit-less failure 0, on overflow the maximal value with the stream
failed (C++11 num_get semantics). -/
def readCppSizeT (v : Str) : Bool × Nat :=
  let v1 := v.dropWhile isCppWs
  let signAndRest : Bool × Str :=
    match v1 with
    | '-' :: t => (true, t)
    | '+' :: t => (false, t)
    | t => (false, t)
  let ds := signAndRest.2.takeWhile Char.isDigit
  if ds = [] then (false, 0)
  else
    let n := natOfDigits ds 0
    if n < 2 ^ 64 then
      (true, if signAndRest.1 then (2 ^ 64 - n) % 2 ^ 64 else n)
    else (false, 2 ^ 64 - 1)

/-- Models `istream >> std::hex >> (size_t)`, analogously to
`readCppSizeT`. -/
def readCppHexSizeT (v : Str) : Bool × Nat :=
  let v1 := v.dropWhile isCppWs
  let signAndRest : Bool × Str :=
    match v1 with
    | '-' :: t => (true, t)
    | '+' :: t => (false, t)
    | t => (false, t)
  let ds := signAndRest.2.takeWhile isHexDigit
  if ds = [] then (false, 0)
  else
    let n := natOfHexDigits ds 0
    if n < 2 ^ 64 then
      (true, if signAndRest.1 then (2 ^ 64 - n) % 2 ^ 64 else n)
    else (false, 2 ^ 64 - 1)

/-- Case-insensitive prefix test, models `strncasecmp(s, prefix, n) == 0`
with `n` the prefix length. -/
def isPrefixCI : Str → Str → Bool
  | [], _ => true
  | _ :: _, [] => false
  | p :: ps, c :: cs => (p.toLower = c.toLower) && isPrefixCI ps cs

/-- Last element of a list, with a default for the empty list. -/
def lastD {α : Type} : List α → α → α
  | [], d => d
  | x :: xs, _ => lastD xs x

/-- Last element of a list as an option, with a default option. -/
def olastD {α : Type} : List α → Option α → Option α
  | [], d => d
  | x :: xs, _ => olastD xs (some x)

theorem olastD_isSome {α : Type} (l : List α) (d : Option α) :
    (olastD l d).isSome = true ↔ l ≠ [] ∨ d.isSome = true := by
  induction l generalizing d with
  | nil => simp [olastD]
  | cons x xs ih => simp [olastD, ih]

/-- Substring search, models `std::string::find(needle) != npos`. -/
def containsSub (needle : Str) : Str → Bool
  | [] => needle.isPrefixOf []
  | c :: cs => needle.isPrefixOf (c :: cs) || containsSub needle cs

/-! ## URL splitter (HttpUrl::HttpUrl, http.cpp lines 19 to 54) -/

inductive Protocol where
  | NONE | HTTP | HTTPS
deriving DecidableEq, Repr

structure HttpUrl where
  protocol : Protocol
  host : Str
  port : Str
  path : Str
deriving DecidableEq, Repr

/-- Splitting of `host[:port]/path` after the scheme prefix, the body
of the `HttpUrl` constructor: the first ':' or '/' ends the host; a ':'
starts the port, read until the next '/'. -/
def urlSplit (protocol : Protocol) (rest : Str) : HttpUrl :=
  let dfl := if protocol = Protocol.HTTP then str "80" else str "443"
  match spanNot (fun c => c = ':' || c = '/') rest with
  | (h, []) => ⟨protocol, h, dfl, str "/"⟩
  | (h, c :: t) =>
    if c = ':' then
      match spanNot (fun c => c = '/') t with
      | (p, []) => ⟨protocol, h, p, str "/"⟩
      | (p, t2) => ⟨protocol, h, p, t2⟩
    else ⟨protocol, h, dfl, c :: t⟩

/-- Embedding of the `HttpUrl` constructor: detect a case-insensitive
scheme prefix, then split the remainder. -/
def HttpUrl.ofStr (s : Str) : HttpUrl :=
  if isPrefixCI (str "http://") s then urlSplit Protocol.HTTP (s.drop 7)
  else if isPrefixCI (str "https://") s then urlSplit Protocol.HTTPS (s.drop 8)
  else urlSplit Protocol.NONE s

/-- Whether the remainder after the scheme has an explicit port, i.e.
its first ':' or '/' is a ':'. -/
def restHasPort (rest : Str) : Bool :=
  match spanNot (fun c => c = ':' || c = '/') rest with
  | (_, ':' :: _) => true
  | _ => false

def hasExplicitPort (s : Str) : Bool :=
  if isPrefixCI (str "http://") s then restHasPort (s.drop 7)
  else if isPrefixCI (str "https://") s then restHasPort (s.drop 8)
  else restHasPort s

/-! ## Message model (http.hpp) -/

structure Header where
  key : Str
  value : Str
deriving DecidableEq, Repr

/-- The start line is the `std::array<std::string, 3>` of the source. -/
structure StartLine where
  f0 : Str
  f1 : Str
  f2 : Str
deriving DecidableEq, Repr

structure HttpMessage where
  startLine : StartLine
  headerLines : List Header
  body : Str
deriving DecidableEq, Repr

def emptyMessage : HttpMessage := ⟨⟨[], [], []⟩, [], []⟩

/-! ## Incremental parser (HttpParser, http.cpp) -/

inductive PState where
  | START | HEADER | BODY | ACCEPT
deriving DecidableEq, Repr

inductive BodyFormat where
  | PLAIN | LENGTH | CHUNKED
deriving DecidableEq, Repr

/-- Parser together with the message it is bound to.  In the source the
parser holds a reference to the message; here the pair is passed as one
state value. -/
structure HttpParser where
  message : HttpMessage
  pstate : PState
  format : BodyFormat
  contentLength : Nat
deriving DecidableEq, Repr

def parserInit : HttpParser := ⟨emptyMessage, PState.START, BodyFormat.PLAIN, 0⟩

/-- Typed parse errors (class ParseError). -/
abbrev PErr := String

/-- Models `HttpParser::canonicalize`: the first letter of each
alphabetic run is uppercased, the others lowercased. -/
def canonAux : Bool → Str → Str
  | _, [] => []
  | first, c :: cs =>
    if c.isAlpha then
      (if first then c.toUpper else c.toLower) :: canonAux false cs
    else c :: canonAux true cs

def canonicalize (s : Str) : Str := canonAux true s

/-- Models `HttpParser::putStartLine`: read one line, split off two
space-delimited fields, the rest up to a '\r' is the third field. -/
def putStartLine (p : HttpParser) (input : Str) : Except PErr (HttpParser × Str) :=
  match getline input with
  | none => .ok (p, input)
  | some (line, rest) =>
    match spanNot (fun c => c = ' ') line with
    | (_, []) => .error "Invalid start line (need 3 fields)"
    | (f0, _ :: r1) =>
      match spanNot (fun c => c = ' ') r1 with
      | (_, []) => .error "Invalid start line (need 3 fields)"
      | (f1, _ :: r2) =>
        let f2 := (spanNot (fun c => c = '\r') r2).1
        .ok ({ p with message := { p.message with startLine := ⟨f0, f1, f2⟩ },
                      pstate := PState.HEADER }, rest)

/-- Key and value extraction of `HttpParser::putHeader` for a non-empty
header line: reject a missing colon or a space before the colon, trim
the value (`pos1`/`pos2` index arithmetic of the source, including the
`size_t` wrap when `pos2 < pos1`), canonicalize the key. -/
def parseHeaderLine (line : Str) : Except PErr Header :=
  match spanNot (fun c => c = ':' || c = ' ') line with
  | (_, []) => .error "Invalid header line (no colon)"
  | (key, c :: _) =>
    if c = ' ' then .error "Invalid header line (space before colon)"
    else
      let pos := key.length
      let pos1? := (List.findIdx? (fun c => !(c = ' ' || c = '\t'))
        (line.drop (pos + 1))).map (· + pos + 1)
      let pos2 := line.length -
        (line.reverse.takeWhile (fun c => c = ' ' || c = '\t' || c = '\r')).length
      let value : Str :=
        match pos1? with
        | none => []
        | some pos1 =>
          if pos1 ≤ pos2 then (line.drop pos1).take (pos2 - pos1)
          else line.drop pos1
      .ok ⟨canonicalize key, value⟩

/-- Models `HttpParser::hasBody`: a response (start line begins with an
HTTP version) has a body unless the status is 1xx, 204 or 304; a
request has a body only when framing headers said so. -/
def hasBody (p : HttpParser) : Except PErr Bool :=
  let s := p.message.startLine.f0
  if s = str "HTTP/1.0" ∨ s = str "HTTP/1.1" then
    let status := p.message.startLine.f1
    if status.length ≠ 3 then .error "Invalid status code"
    else .ok (!(status.head? = some '1' || status = str "204" || status = str "304"))
  else
    .ok ((p.format = BodyFormat.LENGTH && p.contentLength > 0)
      || p.format = BodyFormat.CHUNKED)

/-- Models `HttpParser::putHeader`: read one line; an empty (or CR only)
line ends the header section via `hasBody`; otherwise parse the header
line, append it, and inspect it for framing.  A Content-Length header
runs `istream` extraction into `contentLength` and sets the format to
LENGTH only when the extraction succeeds; a Transfer-Encoding header
whose value contains "chunked" sets the format to CHUNKED. -/
def putHeader (p : HttpParser) (input : Str) : Except PErr (HttpParser × Str) :=
  match getline input with
  | none => .ok (p, input)
  | some (line, rest) =>
    if line = [] ∨ line = ['\r'] then
      match hasBody p with
      | .error e => .error e
      | .ok b =>
        .ok ({ p with pstate := if b then PState.BODY else PState.ACCEPT }, rest)
    else
      match parseHeaderLine line with
      | .error e => .error e
      | .ok h =>
        let p1 := { p with message :=
          { p.message with headerLines := p.message.headerLines ++ [h] } }
        if h.key = str "Content-Length" then
          let r := readCppSizeT h.value
          let p2 := { p1 with contentLength := r.2 }
          .ok (if r.1 then { p2 with format := BodyFormat.LENGTH } else p2, rest)
        else if h.key = str "Transfer-Encoding" then
          .ok (if containsSub (str "chunked") h.value
            then { p1 with format := BodyFormat.CHUNKED } else p1, rest)
        else
          .ok (p1, rest)

/-- Models `HttpParser::putContent`.  PLAIN appends everything available
and accepts on an empty source; LENGTH appends `contentLength` bytes and
accepts; CHUNKED alternates between a chunk header line (appended raw,
with its newline, to the body) and `contentLength` raw bytes.  A failed
`getline` in the chunk-header sub-state leaves the line empty, so the
source appends a bare newline and accepts. -/
def putContent (p : HttpParser) (input : Str) : HttpParser × Str :=
  match p.format with
  | BodyFormat.PLAIN =>
    if input = [] then ({ p with pstate := PState.ACCEPT }, input)
    else ({ p with message :=
      { p.message with body := p.message.body ++ input } }, [])
  | BodyFormat.LENGTH =>
    ({ p with
        message := { p.message with body := p.message.body ++ input.take p.contentLength },
        pstate := PState.ACCEPT },
      input.drop p.contentLength)
  | BodyFormat.CHUNKED =>
    if p.contentLength = 0 then
      match getline input with
      | none =>
        ({ p with message := { p.message with body := p.message.body ++ ['\n'] },
                  pstate := PState.ACCEPT }, input)
      | some (line, rest) =>
        let p1 := { p with message :=
          { p.message with body := p.message.body ++ line ++ ['\n'] } }
        if line = [] ∨ line = ['\r'] then
          ({ p1 with pstate := PState.ACCEPT }, rest)
        else
          let n := (readCppHexSizeT line).2
          ({ p1 with contentLength := if n ≠ 0 then (n + 2) % 2 ^ 64 else n }, rest)
    else
      ({ p with
          message := { p.message with body := p.message.body ++ input.take p.contentLength },
          contentLength := 0 },
        input.drop p.contentLength)

/-- Models `HttpParser::parseStep`.  The ACCEPT case asserts in the
source and is never reached by the parse loop; it is a no-op here. -/
def parseStep (p : HttpParser) (input : Str) : Except PErr (HttpParser × Str) :=
  match p.pstate with
  | PState.START => putStartLine p input
  | PState.HEADER => putHeader p input
  | PState.BODY => .ok (putContent p input)
  | PState.ACCEPT => .ok (p, input)

/-- Models the `HttpParser::parse` loop with explicit fuel (the C++
loop stops on ACCEPT or when the stream runs out; every run below
reaches ACCEPT within its fuel). -/
def parseRun : Nat → HttpParser → Str → Except PErr (HttpParser × Str)
  | 0, p, input => .ok (p, input)
  | fuel + 1, p, input =>
    if p.pstate = PState.ACCEPT then .ok (p, input)
    else
      match parseStep p input with
      | .error e => .error e
      | .ok (p1, rest) => parseRun fuel p1 rest

/-- Models `HttpParser::reset` (http.cpp lines 322 to 330): the start
line fields, header lines and body are cleared and the state returns to
START.  The source does not touch `format` or `contentLength`. -/
def reset (p : HttpParser) : HttpParser :=
  { p with message := emptyMessage, pstate := PState.START }

/-! ## Cache-control evaluator (http.cpp lines 347 to 552)

Time points and durations of `std::chrono::system_clock` are modelled
as integers (clock ticks).  `HttpParser::parse_date` delegates to
`std::get_time` with the IMF-fixdate format; it is taken as a
parameter `pd : Str → Option Int` throughout (`none` models the
ParseError throw). -/

/-- Models `HttpParser::parseDeltaSeconds`: `boost` lexical conversion
of the whole string to `uint32_t`; any non-digit or a value of 2^32 or
more is a parse failure. -/
def parseDeltaSeconds (s : Str) : Option Int :=
  if s ≠ [] ∧ s.all Char.isDigit then
    let n := natOfDigits s 0
    if n < 2 ^ 32 then some (Int.ofNat n) else none
  else none

structure ResponseCacheInfo where
  date_value : Int
  request_time : Int
  response_time : Int
  last_modified : Option Int
  corrected_initial_age : Int
  freshness_lifetime : Int
  etag : Str
  no_cache : Bool
  no_store : Bool
  private_ : Bool
deriving DecidableEq, Repr

structure RequestCacheInfo where
  if_modified_since : Option Int
  if_none_match : Str
  no_cache : Bool
deriving DecidableEq, Repr

/-- Accumulator of the header walk in
`HttpParser::parseResponseCacheInfo`. -/
structure RCAcc where
  age_value : Int
  cache_control : Str
  date_value : Option Int
  etag : Str
  expires : Option Int
  last_modified : Option Int
deriving DecidableEq, Repr

/-- One header of the walk: each branch assigns only on a successful
parse (the source catches ParseError and keeps the previous value). -/
def stepRCI (pd : Str → Option Int) (h : Header) (a : RCAcc) : RCAcc :=
  if h.key = str "Age" then
    match parseDeltaSeconds h.value with
    | some n => { a with age_value := n }
    | none => a
  else if h.key = str "Cache-Control" then { a with cache_control := h.value }
  else if h.key = str "Date" then
    match pd h.value with
    | some t => { a with date_value := some t }
    | none => a
  else if h.key = str "Etag" then { a with etag := h.value }
  else if h.key = str "Expires" then
    match pd h.value with
    | some t => { a with expires := some t }
    | none => a
  else if h.key = str "Last-Modified" then
    match pd h.value with
    | some t => { a with last_modified := some t }
    | none => a
  else a

def collectRCI (pd : Str → Option Int) : List Header → RCAcc → RCAcc
  | [], a => a
  | h :: hs, a => collectRCI pd hs (stepRCI pd h a)

/-- Accumulator of the Cache-Control token walk. -/
structure CCAcc where
  no_cache : Bool
  no_store : Bool
  private_ : Bool
  max_age : Option Int
  s_maxage : Option Int
deriving DecidableEq, Repr

/-- One Cache-Control token (`HttpParser::parseCacheControl` loop
body); a failed delta-seconds parse keeps the previous value. -/
def stepCC (a : CCAcc) (f : Str) : CCAcc :=
  if f = str "no-cache" then { a with no_cache := true }
  else if f = str "no-store" then { a with no_store := true }
  else if f = str "private" then { a with private_ := true }
  else if (str "max-age=").isPrefixOf f then
    match parseDeltaSeconds (f.drop 8) with
    | some n => { a with max_age := some n }
    | none => a
  else if (str "s-maxage=").isPrefixOf f then
    match parseDeltaSeconds (f.drop 9) with
    | some n => { a with s_maxage := some n }
    | none => a
  else a

def collectCC : List Str → CCAcc → CCAcc
  | [], a => a
  | f :: fs, a => collectCC fs (stepCC a f)

/-- Comma splitter; `getline(ss >> std::ws, field, ',')` of the source
also skips leading whitespace of each field (a trailing empty field of
the model is inert in `stepCC`). -/
def splitOnCommaAux : Str → Str → List Str
  | [], acc => [acc.reverse]
  | c :: cs, acc =>
    if c = ',' then acc.reverse :: splitOnCommaAux cs []
    else splitOnCommaAux cs (c :: acc)

def tokensOf (cc : Str) : List Str :=
  (splitOnCommaAux cc []).map (fun t => t.dropWhile isCppWs)

/-- Models `HttpParser::parseCacheControl` (response overload): collect
the directives, then pick the freshness lifetime with the source
precedence; when nothing applies the field is left as it came in (the
caller passes it as zero). -/
def parseCacheControl (ci : ResponseCacheInfo) (cc : Str) (expires : Option Int)
    (now : Int) : ResponseCacheInfo :=
  let a := collectCC (tokensOf cc) ⟨false, false, false, none, none⟩
  let ci1 := { ci with no_cache := a.no_cache, no_store := a.no_store,
                       private_ := a.private_ }
  match a.s_maxage with
  | some v => { ci1 with freshness_lifetime := v }
  | none =>
    match a.max_age with
    | some v => { ci1 with freshness_lifetime := v }
    | none =>
      match expires with
      | some e => { ci1 with freshness_lifetime := e - ci.date_value }
      | none =>
        match ci.last_modified with
        | some lm => { ci1 with freshness_lifetime := Int.tdiv (now - lm) 10 }
        | none => ci1

/-- Models `HttpParser::parseResponseCacheInfo`: walk the headers, fail
without a parseable Date, otherwise assign the computed fields on the
caller-supplied record and evaluate Cache-Control.  The C++ `ci` is an
out-parameter written field by field; `ci0` is its incoming content,
and a field the function never assigns keeps its incoming value.  In
particular `freshness_lifetime` is written only by a `parseCacheControl`
branch: with no applicable directive the result carries
`ci0.freshness_lifetime`, which for the default-initialized record of
`on_read_done` (connection.cpp line 696) is an indeterminate chrono
duration, not zero.  (The source also assigns `etag` and
`last_modified` during a walk that may end in failure; the `none`
result drops those partial writes, which no caller observes.)  `now`
is the clock read by the Last-Modified heuristic. -/
def parseResponseCacheInfo (pd : Str → Option Int) (msg : HttpMessage)
    (request_time response_time now : Int) (ci0 : ResponseCacheInfo) :
    Option ResponseCacheInfo :=
  let a := collectRCI pd msg.headerLines
    ⟨0, [], none, ci0.etag, none, ci0.last_modified⟩
  match a.date_value with
  | none => none
  | some d =>
    let apparent_age : Int := if response_time > d then response_time - d else 0
    let corrected_age_value := a.age_value + (response_time - request_time)
    let ci : ResponseCacheInfo :=
      { ci0 with
        date_value := d
        request_time := request_time
        response_time := response_time
        last_modified := a.last_modified
        corrected_initial_age := max apparent_age corrected_age_value
        etag := a.etag }
    some (parseCacheControl ci a.cache_control a.expires now)

/-- Models one header of `HttpParser::parseRequestCacheInfo`; the
Cache-Control branch is the request overload of `parseCacheControl`,
which resets `no_cache` and sets it from the tokens of that header. -/
def stepReqCI (pd : Str → Option Int) (h : Header) (a : RequestCacheInfo) :
    RequestCacheInfo :=
  if h.key = str "Cache-Control" then
    { a with no_cache := (tokensOf h.value).any (fun f => f = str "no-cache") }
  else if h.key = str "If-Modified-Since" then
    match pd h.value with
    | some t => { a with if_modified_since := some t }
    | none => a
  else if h.key = str "If-None-Match" then { a with if_none_match := h.value }
  else a

def collectReqCI (pd : Str → Option Int) : List Header → RequestCacheInfo → RequestCacheInfo
  | [], a => a
  | h :: hs, a => collectReqCI pd hs (stepReqCI pd h a)

def parseRequestCacheInfo (pd : Str → Option Int) (msg : HttpMessage) :
    RequestCacheInfo :=
  collectReqCI pd msg.headerLines ⟨none, [], false⟩

/-- Models `ResponseCacheInfo::current_age` at clock reading `now`. -/
def currentAge (ci : ResponseCacheInfo) (now : Int) : Int :=
  ci.corrected_initial_age + (now - ci.response_time)

/-! ## Sharded cache (cache.hpp) and store policy (connection.cpp) -/

structure CacheItem where
  message : HttpMessage
  info : ResponseCacheInfo
deriving DecidableEq, Repr

/-- One cache entry; the value is a `shared_ptr` in the source, `none`
models the null pointer of a never-written slot. -/
structure Slot where
  key : Str
  value : Option CacheItem

/-- The fixed-size cache.  `hash` stands for `std::hash<std::string>`
(implementation defined); slots are indexed modulo `n`. -/
structure CacheT where
  n : Nat
  hash : Str → Nat
  slots : Nat → Slot

def CacheT.idx (c : CacheT) (key : Str) : Nat := c.hash key % c.n

def CacheT.setSlot (c : CacheT) (i : Nat) (s : Slot) : CacheT :=
  { c with slots := fun j => if j = i then s else c.slots j }

/-- Models `RemoteConnection::store_cache` (connection.cpp lines 647 to
673) under the accessor of `request_url`: a 200 overwrites slot key and
value; otherwise, when the slot key equals the URL, the stored item
keeps its body and start line but takes the new header lines and cache
info; otherwise nothing is stored and false is returned.  The source
dereferences the stored pointer in the matching branch; a matching key
with a null value would be undefined behaviour there (such a state is
never created, since every `set` stores a non-null item) and is
modelled as leaving the cache unchanged. -/
def storeCache (status request_url : Str) (msg : HttpMessage)
    (ci : ResponseCacheInfo) (c : CacheT) : Bool × CacheT :=
  let i := c.idx request_url
  let slot := c.slots i
  if status = str "200" then
    (true, c.setSlot i ⟨request_url, some ⟨msg, ci⟩⟩)
  else if slot.key = request_url then
    match slot.value with
    | some item =>
      (true, c.setSlot i ⟨slot.key,
        some ⟨{ item.message with headerLines := msg.headerLines }, ci⟩⟩)
    | none => (true, c)
  else
    (false, c)

/-- Maximal cacheable body size (MAX_CACHEABLE_BODYSIZE). -/
def MAX_CACHEABLE_BODYSIZE : Nat := 2 * 1024 * 1024

/-- Models `RemoteConnection::is_cacheable` (connection.cpp lines 605
to 645): the five guards in source order; on success the parsed
response cache info is returned.  `ci0` is the incoming content of the
`ResponseCacheInfo&` out-parameter (the default-initialized local of
`on_read_done`, whose duration fields are indeterminate in C++). -/
def isCacheable (pd : Str → Option Int) (request_method status : Str)
    (msg : HttpMessage) (request_time response_time now : Int)
    (ci0 : ResponseCacheInfo) : Option ResponseCacheInfo :=
  if request_method ≠ str "GET" then none
  else if status ≠ str "200" ∧ status ≠ str "304" then none
  else if msg.body.length > MAX_CACHEABLE_BODYSIZE then none
  else
    match parseResponseCacheInfo pd msg request_time response_time now ci0 with
    | none => none
    | some ci => if ci.no_store || ci.private_ then none else some ci

/-- Models the caching tail of `RemoteConnection::on_read_done`:
`ResponseCacheInfo ci;` (default-initialized, its incoming content
passed as `ci0`) then `is_cacheable(...) && store_cache(...)` with the
short-circuit of the conjunction. -/
def onReadDoneStore (pd : Str → Option Int) (request_method request_url : Str)
    (msg : HttpMessage) (request_time response_time now : Int)
    (ci0 : ResponseCacheInfo) (c : CacheT) : Bool × CacheT :=
  let status := msg.startLine.f1
  match isCacheable pd request_method status msg request_time response_time now ci0 with
  | none => (false, c)
  | some ci => storeCache status request_url msg ci c

/-! ## Client-side cache consultation (connection.cpp lines 410 to 506) -/

/-- Models the erase loop of `ClientConnection::on_read_done`: every
If-Modified-Since and If-None-Match header is removed. -/
def stripValidators (hl : List Header) : List Header :=
  hl.filter (fun h =>
    !(h.key = str "If-Modified-Since" || h.key = str "If-None-Match"))

/-- Models `Connection::replace_header`: the first header with the key
gets the new value, otherwise the header is appended. -/
def replaceHeader : List Header → Str → Str → List Header
  | [], k, v => [⟨k, v⟩]
  | h :: hs, k, v =>
    if h.key = k then ⟨k, v⟩ :: hs else h :: replaceHeader hs k v

/-- Models `ClientConnection::check_cached`: decide whether the cached
entry may be served; on the revalidation path attach the cached
validators (when present) to the outgoing request headers.  `fd` is the
IMF-fixdate formatter used by `replace_header` for time points. -/
def checkCached (fd : Int → Str) (cached : CacheItem) (ci : RequestCacheInfo)
    (now : Int) (reqHeaders : List Header) : Option CacheItem × List Header :=
  let ri := cached.info
  let still : Option CacheItem :=
    if ci.no_cache || ri.no_cache then none
    else if currentAge ri now ≥ ri.freshness_lifetime then none
    else some cached
  match still with
  | some it => (some it, reqHeaders)
  | none =>
    let hl := match ri.last_modified with
      | some lm => replaceHeader reqHeaders (str "If-Modified-Since") (fd lm)
      | none => reqHeaders
    let hl := if ri.etag ≠ [] then
        replaceHeader hl (str "If-None-Match") ri.etag
      else hl
    (none, hl)

/-- Cache lookup of `ClientConnection::on_read_done`: only a GET
consults the cache, and a slot with a foreign key or a null value is a
miss. -/
def lookupCached (reqMsg : HttpMessage) (c : CacheT) : Option CacheItem :=
  if reqMsg.startLine.f0 = str "GET" then
    let slot := c.slots (c.idx reqMsg.startLine.f1)
    if slot.key ≠ reqMsg.startLine.f1 then none else slot.value
  else none

/-- Models the header rewriting of `ClientConnection::on_read_done`:
on a hit, `check_cached` decides between serving and revalidating; on a
miss the client validators are stripped.  Returns the entry to serve
from (`none` means the request is forwarded) and the header lines of
the outgoing request. -/
def clientValidatorRewrite (pd : Str → Option Int) (fd : Int → Str)
    (reqMsg : HttpMessage) (c : CacheT) (now : Int) :
    Option CacheItem × List Header :=
  let ci := parseRequestCacheInfo pd reqMsg
  match lookupCached reqMsg c with
  | some item => checkCached fd item ci now reqMsg.headerLines
  | none => (none, stripValidators reqMsg.headerLines)

/-! ## Selector views of the header and token walks -/

/-- Value of the last parseable Age header, or 0 (the claim view of the
`age_value` accumulation). -/
def ageHeaderValue (msg : HttpMessage) : Int :=
  lastD (msg.headerLines.filterMap
    (fun h => if h.key = str "Age" then parseDeltaSeconds h.value else none)) 0

/-- Value of the last Cache-Control header, or the empty string. -/
def cacheControlOf (msg : HttpMessage) : Str :=
  lastD (msg.headerLines.filterMap
    (fun h => if h.key = str "Cache-Control" then some h.value else none)) []

/-- Value of the last parseable Expires header. -/
def expiresOf (pd : Str → Option Int) (msg : HttpMessage) : Option Int :=
  olastD (msg.headerLines.filterMap
    (fun h => if h.key = str "Expires" then pd h.value else none)) none

/-- Last parseable s-maxage directive of a Cache-Control value. -/
def sMaxageOf (cc : Str) : Option Int :=
  olastD ((tokensOf cc).filterMap
    (fun f => if (str "s-maxage=").isPrefixOf f then parseDeltaSeconds (f.drop 9)
      else none)) none

/-- Last parseable max-age directive of a Cache-Control value. -/
def maxAgeOf (cc : Str) : Option Int :=
  olastD ((tokensOf cc).filterMap
    (fun f => if (str "max-age=").isPrefixOf f then parseDeltaSeconds (f.drop 8)
      else none)) none

theorem stepRCI_date (pd : Str → Option Int) (h : Header) (a : RCAcc) :
    (stepRCI pd h a).date_value =
      match (if h.key = str "Date" then pd h.value else none) with
      | some t => some t
      | none => a.date_value := by
  unfold stepRCI
  split_ifs <;>
    (cases hpv : parseDeltaSeconds h.value <;> cases hpw : pd h.value <;>
      simp_all +decide)

theorem stepRCI_age (pd : Str → Option Int) (h : Header) (a : RCAcc) :
    (stepRCI pd h a).age_value =
      lastD ((if h.key = str "Age" then parseDeltaSeconds h.value else none).toList)
        a.age_value := by
  unfold stepRCI
  split_ifs <;>
    (cases hpv : parseDeltaSeconds h.value <;> cases hpw : pd h.value <;>
      simp_all +decide [lastD])

theorem stepRCI_cc (pd : Str → Option Int) (h : Header) (a : RCAcc) :
    (stepRCI pd h a).cache_control =
      lastD ((if h.key = str "Cache-Control" then some h.value else none).toList)
        a.cache_control := by
  unfold stepRCI
  split_ifs <;>
    (cases hpv : parseDeltaSeconds h.value <;> cases hpw : pd h.value <;>
      simp_all +decide [lastD])

theorem stepRCI_expires (pd : Str → Option Int) (h : Header) (a : RCAcc) :
    (stepRCI pd h a).expires =
      match (if h.key = str "Expires" then pd h.value else none) with
      | some t => some t
      | none => a.expires := by
  unfold stepRCI
  split_ifs <;>
    (cases hpv : parseDeltaSeconds h.value <;> cases hpw : pd h.value <;>
      simp_all +decide)

theorem stepRCI_lm (pd : Str → Option Int) (h : Header) (a : RCAcc) :
    (stepRCI pd h a).last_modified =
      match (if h.key = str "Last-Modified" then pd h.value else none) with
      | some t => some t
      | none => a.last_modified := by
  unfold stepRCI
  split_ifs <;>
    (cases hpv : parseDeltaSeconds h.value <;> cases hpw : pd h.value <;>
      simp_all +decide)

theorem collectRCI_date (pd : Str → Option Int) (hs : List Header) :
    ∀ a, (collectRCI pd hs a).date_value =
      olastD (hs.filterMap (fun h => if h.key = str "Date" then pd h.value else none))
        a.date_value := by
  induction hs with
  | nil => intro a; rfl
  | cons h t ih =>
    intro a
    rw [collectRCI, ih, List.filterMap_cons, stepRCI_date]
    cases hc : (if h.key = str "Date" then pd h.value else none) <;> simp [olastD]

theorem collectRCI_age (pd : Str → Option Int) (hs : List Header) :
    ∀ a, (collectRCI pd hs a).age_value =
      lastD (hs.filterMap
        (fun h => if h.key = str "Age" then parseDeltaSeconds h.value else none))
        a.age_value := by
  induction hs with
  | nil => intro a; rfl
  | cons h t ih =>
    intro a
    rw [collectRCI, ih, List.filterMap_cons, stepRCI_age]
    cases hc : (if h.key = str "Age" then parseDeltaSeconds h.value else none) <;>
      simp [lastD]

theorem collectRCI_cc (pd : Str → Option Int) (hs : List Header) :
    ∀ a, (collectRCI pd hs a).cache_control =
      lastD (hs.filterMap
        (fun h => if h.key = str "Cache-Control" then some h.value else none))
        a.cache_control := by
  induction hs with
  | nil => intro a; rfl
  | cons h t ih =>
    intro a
    rw [collectRCI, ih, List.filterMap_cons, stepRCI_cc]
    cases hc : (if h.key = str "Cache-Control" then some h.value else none) <;>
      simp [lastD]

theorem collectRCI_expires (pd : Str → Option Int) (hs : List Header) :
    ∀ a, (collectRCI pd hs a).expires =
      olastD (hs.filterMap (fun h => if h.key = str "Expires" then pd h.value else none))
        a.expires := by
  induction hs with
  | nil => intro a; rfl
  | cons h t ih =>
    intro a
    rw [collectRCI, ih, List.filterMap_cons, stepRCI_expires]
    cases hc : (if h.key = str "Expires" then pd h.value else none) <;> simp [olastD]

theorem collectRCI_lm (pd : Str → Option Int) (hs : List Header) :
    ∀ a, (collectRCI pd hs a).last_modified =
      olastD (hs.filterMap
        (fun h => if h.key = str "Last-Modified" then pd h.value else none))
        a.last_modified := by
  induction hs with
  | nil => intro a; rfl
  | cons h t ih =>
    intro a
    rw [collectRCI, ih, List.filterMap_cons, stepRCI_lm]
    cases hc : (if h.key = str "Last-Modified" then pd h.value else none) <;>
      simp [olastD]

theorem ne_of_head_lit {l₁ l₂ : Str} {c₁ c₂ : Char} (h1 : l₁.head? = some c₁)
    (h2 : l₂.head? = some c₂) (h : c₁ ≠ c₂) : l₁ ≠ l₂ := by
  intro he
  rw [he, h2] at h1
  injection h1 with hv
  exact h hv.symm

theorem not_isPrefixOf_of_false {l₁ l₂ : Str} (h : l₁.isPrefixOf l₂ = false) :
    ¬ l₁.isPrefixOf l₂ = true := by simp [h]

theorem stepCC_smax (a : CCAcc) (f : Str) :
    (stepCC a f).s_maxage =
      match (if (str "s-maxage=").isPrefixOf f then parseDeltaSeconds (f.drop 9)
        else none) with
      | some n => some n
      | none => a.s_maxage := by
  unfold stepCC
  by_cases h5 : (str "s-maxage=").isPrefixOf f = true
  · obtain ⟨t, ht⟩ := List.isPrefixOf_iff_prefix.mp h5
    subst ht
    have n1 : ¬ (str "s-maxage=" ++ t = str "no-cache") :=
      ne_of_head_lit rfl rfl (by decide)
    have n2 : ¬ (str "s-maxage=" ++ t = str "no-store") :=
      ne_of_head_lit rfl rfl (by decide)
    have n3 : ¬ (str "s-maxage=" ++ t = str "private") :=
      ne_of_head_lit rfl rfl (by decide)
    have n4 : ¬ ((str "max-age=").isPrefixOf (str "s-maxage=" ++ t) = true) :=
      not_isPrefixOf_of_false rfl
    rw [if_neg n1, if_neg n2, if_neg n3, if_neg n4, if_pos h5, if_pos h5]
    cases hq : parseDeltaSeconds ((str "s-maxage=" ++ t).drop 9) <;> rfl
  · have hr : (match (if (str "s-maxage=").isPrefixOf f then
          parseDeltaSeconds (f.drop 9) else none) with
        | some n => some n
        | none => a.s_maxage) = a.s_maxage := by rw [if_neg h5]
    rw [hr]
    split_ifs with h1 h2 h3 h4
    · rfl
    · rfl
    · rfl
    · cases hq : parseDeltaSeconds (f.drop 8) <;> rfl
    · rfl

theorem stepCC_max (a : CCAcc) (f : Str) :
    (stepCC a f).max_age =
      match (if (str "max-age=").isPrefixOf f then parseDeltaSeconds (f.drop 8)
        else none) with
      | some n => some n
      | none => a.max_age := by
  unfold stepCC
  by_cases h4 : (str "max-age=").isPrefixOf f = true
  · obtain ⟨t, ht⟩ := List.isPrefixOf_iff_prefix.mp h4
    subst ht
    have n1 : ¬ (str "max-age=" ++ t = str "no-cache") :=
      ne_of_head_lit rfl rfl (by decide)
    have n2 : ¬ (str "max-age=" ++ t = str "no-store") :=
      ne_of_head_lit rfl rfl (by decide)
    have n3 : ¬ (str "max-age=" ++ t = str "private") :=
      ne_of_head_lit rfl rfl (by decide)
    rw [if_neg n1, if_neg n2, if_neg n3, if_pos h4, if_pos h4]
    cases hq : parseDeltaSeconds ((str "max-age=" ++ t).drop 8) <;> rfl
  · have hr : (match (if (str "max-age=").isPrefixOf f then
          parseDeltaSeconds (f.drop 8) else none) with
        | some n => some n
        | none => a.max_age) = a.max_age := by rw [if_neg h4]
    rw [hr]
    split_ifs with h1 h2 h3 h5
    · rfl
    · rfl
    · rfl
    · cases hq : parseDeltaSeconds (f.drop 9) <;> rfl
    · rfl

theorem collectCC_smax (fs : List Str) :
    ∀ a, (collectCC fs a).s_maxage =
      olastD (fs.filterMap
        (fun f => if (str "s-maxage=").isPrefixOf f then parseDeltaSeconds (f.drop 9)
          else none)) a.s_maxage := by
  induction fs with
  | nil => intro a; rfl
  | cons f t ih =>
    intro a
    rw [collectCC, ih, List.filterMap_cons, stepCC_smax]
    cases hc : (if (str "s-maxage=").isPrefixOf f then parseDeltaSeconds (f.drop 9)
      else none) <;> simp [olastD]

theorem collectCC_max (fs : List Str) :
    ∀ a, (collectCC fs a).max_age =
      olastD (fs.filterMap
        (fun f => if (str "max-age=").isPrefixOf f then parseDeltaSeconds (f.drop 8)
          else none)) a.max_age := by
  induction fs with
  | nil => intro a; rfl
  | cons f t ih =>
    intro a
    rw [collectCC, ih, List.filterMap_cons, stepCC_max]
    cases hc : (if (str "max-age=").isPrefixOf f then parseDeltaSeconds (f.drop 8)
      else none) <;> simp [olastD]

/-- `parseCacheControl` only writes the directive flags and the
freshness lifetime; every other field passes through. -/
theorem parseCacheControl_preserved (ci : ResponseCacheInfo) (cc : Str)
    (e : Option Int) (now : Int) :
    (parseCacheControl ci cc e now).corrected_initial_age = ci.corrected_initial_age
  ∧ (parseCacheControl ci cc e now).date_value = ci.date_value
  ∧ (parseCacheControl ci cc e now).last_modified = ci.last_modified
  ∧ (parseCacheControl ci cc e now).etag = ci.etag := by
  simp only [parseCacheControl]
  repeat' split
  all_goals simp

/-- The freshness lifetime of `parseCacheControl`, written with the
selector view: s-maxage, then max-age, then Expires minus Date, then
the Last-Modified heuristic, else the incoming value. -/
theorem parseCacheControl_freshness (ci : ResponseCacheInfo) (cc : Str)
    (e : Option Int) (now : Int) :
    (parseCacheControl ci cc e now).freshness_lifetime =
      match sMaxageOf cc, maxAgeOf cc, e, ci.last_modified with
      | some s, _, _, _ => s
      | none, some m, _, _ => m
      | none, none, some ex, _ => ex - ci.date_value
      | none, none, none, some lm => Int.tdiv (now - lm) 10
      | none, none, none, none => ci.freshness_lifetime := by
  have hs : (collectCC (tokensOf cc) ⟨false, false, false, none, none⟩).s_maxage
      = sMaxageOf cc := by rw [collectCC_smax]; rfl
  have hm : (collectCC (tokensOf cc) ⟨false, false, false, none, none⟩).max_age
      = maxAgeOf cc := by rw [collectCC_max]; rfl
  simp only [parseCacheControl, hs, hm]
  cases sMaxageOf cc <;> cases maxAgeOf cc <;> cases e <;>
    cases ci.last_modified <;> simp

theorem filterMap_ne_nil_iff {α β : Type} (f : α → Option β) (l : List α) :
    l.filterMap f ≠ [] ↔ ∃ a ∈ l, (f a).isSome = true := by
  constructor
  · intro h
    by_contra hc
    push_neg at hc
    refine h (List.filterMap_eq_nil_iff.mpr (fun a ha => ?_))
    have hna := hc a ha
    cases hfa : f a with
    | none => rfl
    | some b => rw [hfa] at hna; simp at hna
  · rintro ⟨a, ha, hs⟩ h
    have hz := List.filterMap_eq_nil_iff.mp h a ha
    rw [hz] at hs
    simp at hs

/-- C3: a `parseResponseCacheInfo` call succeeds exactly when some
Date header parses, and on success the corrected initial age is
`max(apparent_age, age_header + response_delay)` with
`apparent_age = max(0, response_time - date_value)` and
`response_delay = response_time - request_time`; the age header value
is the last parseable Age header, or zero when Age is absent or
unparseable. -/
theorem claim_C3 (pd : Str → Option Int) (msg : HttpMessage) (rt pt now : Int)
    (ci0 : ResponseCacheInfo) :
    ((parseResponseCacheInfo pd msg rt pt now ci0).isSome = true ↔
      ∃ h ∈ msg.headerLines, h.key = str "Date" ∧ (pd h.value).isSome = true)
  ∧ (∀ ci, parseResponseCacheInfo pd msg rt pt now ci0 = some ci →
      ci.corrected_initial_age =
        max (max 0 (pt - ci.date_value)) (ageHeaderValue msg + (pt - rt))) := by
  have hdate := collectRCI_date pd msg.headerLines
    ⟨0, [], none, ci0.etag, none, ci0.last_modified⟩
  have hage := collectRCI_age pd msg.headerLines
    ⟨0, [], none, ci0.etag, none, ci0.last_modified⟩
  constructor
  · simp only [parseResponseCacheInfo]
    rw [hdate]
    cases ho : olastD (msg.headerLines.filterMap
        (fun h => if h.key = str "Date" then pd h.value else none)) none with
    | none =>
      simp only [Option.isSome_none, Bool.false_eq_true, false_iff]
      have hnil : msg.headerLines.filterMap
          (fun h => if h.key = str "Date" then pd h.value else none) = [] := by
        by_contra hne
        have := (olastD_isSome _ none).mpr (Or.inl hne)
        rw [ho] at this
        simp at this
      rintro ⟨h, hmem, hkey, hsome⟩
      have hz := List.filterMap_eq_nil_iff.mp hnil h hmem
      rw [if_pos hkey] at hz
      rw [hz] at hsome
      simp at hsome
    | some d =>
      simp only [Option.isSome_some, true_iff]
      have hne : msg.headerLines.filterMap
          (fun h => if h.key = str "Date" then pd h.value else none) ≠ [] := by
        intro hnil
        rw [hnil] at ho
        simp [olastD] at ho
      obtain ⟨h, hmem, hs⟩ := (filterMap_ne_nil_iff _ _).mp hne
      refine ⟨h, hmem, ?_⟩
      by_cases hk : h.key = str "Date"
      · exact ⟨hk, by rw [if_pos hk] at hs; exact hs⟩
      · rw [if_neg hk] at hs; simp at hs
  · intro ci hci
    simp only [parseResponseCacheInfo] at hci
    rw [hdate] at hci
    cases ho : olastD (msg.headerLines.filterMap
        (fun h => if h.key = str "Date" then pd h.value else none)) none with
    | none => rw [ho] at hci; simp at hci
    | some d =>
      rw [ho] at hci
      simp only [Option.some.injEq] at hci
      rw [← hci]
      rw [(parseCacheControl_preserved _ _ _ _).1,
        (parseCacheControl_preserved _ _ _ _).2.1]
      dsimp only
      rw [hage]
      have hmax : (if pt > d then pt - d else 0) = max 0 (pt - d) := by
        split_ifs <;> omega
      rw [hmax]
      rfl

/-- C4: the freshness lifetime of every computed response cache info
follows the precedence s-maxage, then max-age, then Expires minus
Date, then the Last-Modified heuristic `(now - last_modified)/10`
(division truncating towards zero), taking the first present and
parseable directive.  When none of the four applies the field is
never assigned: the result carries the incoming value of the caller's
record, which the source leaves default-initialized — an indeterminate
chrono duration, not the zero the claim (and spec) state. -/
theorem claim_C4_bug (pd : Str → Option Int) (msg : HttpMessage) (rt pt now : Int)
    (ci0 ci : ResponseCacheInfo)
    (hci : parseResponseCacheInfo pd msg rt pt now ci0 = some ci) :
    ci.freshness_lifetime =
      match sMaxageOf (cacheControlOf msg), maxAgeOf (cacheControlOf msg),
          expiresOf pd msg, ci.last_modified with
      | some s, _, _, _ => s
      | none, some m, _, _ => m
      | none, none, some e, _ => e - ci.date_value
      | none, none, none, some lm => Int.tdiv (now - lm) 10
      | none, none, none, none => ci0.freshness_lifetime := by
  have hdate := collectRCI_date pd msg.headerLines
    ⟨0, [], none, ci0.etag, none, ci0.last_modified⟩
  have hcc := collectRCI_cc pd msg.headerLines
    ⟨0, [], none, ci0.etag, none, ci0.last_modified⟩
  have hexp := collectRCI_expires pd msg.headerLines
    ⟨0, [], none, ci0.etag, none, ci0.last_modified⟩
  simp only [parseResponseCacheInfo] at hci
  rw [hdate] at hci
  cases ho : olastD (msg.headerLines.filterMap
      (fun h => if h.key = str "Date" then pd h.value else none)) none with
  | none => rw [ho] at hci; simp at hci
  | some d =>
    rw [ho] at hci
    simp only [Option.some.injEq] at hci
    have hccv : (collectRCI pd msg.headerLines
          ⟨0, [], none, ci0.etag, none, ci0.last_modified⟩).cache_control
        = cacheControlOf msg := by rw [hcc]; rfl
    have hexpv : (collectRCI pd msg.headerLines
          ⟨0, [], none, ci0.etag, none, ci0.last_modified⟩).expires
        = expiresOf pd msg := by rw [hexp]; rfl
    have hcid : ci.date_value = d := by
      rw [← hci]
      rw [(parseCacheControl_preserved _ _ _ _).2.1]
    have hcilm : ci.last_modified
        = (collectRCI pd msg.headerLines
            ⟨0, [], none, ci0.etag, none, ci0.last_modified⟩).last_modified := by
      rw [← hci]
      rw [(parseCacheControl_preserved _ _ _ _).2.2.1]
    rw [← hci]
    rw [parseCacheControl_freshness]
    rw [hci]
    dsimp only
    rw [hccv, hexpv, ← hcid, ← hcilm]

/-- C1: `is_cacheable` returns true exactly when the request method is
GET, the status is 200 or 304, the body is at most 2 MiB (exactly
2 MiB passes, one byte more fails the strict comparison of the
source), `parseResponseCacheInfo` succeeds, and the parsed info has
neither no-store nor private set; and when it returns false the
`is_cacheable && store_cache` tail of `on_read_done` leaves the cache
unchanged. -/
theorem claim_C1 (pd : Str → Option Int) (request_method request_url : Str)
    (msg : HttpMessage) (rt pt now : Int) (ci0 : ResponseCacheInfo) (c : CacheT) :
    (∀ status, (isCacheable pd request_method status msg rt pt now ci0).isSome = true ↔
      (request_method = str "GET" ∧ (status = str "200" ∨ status = str "304")
        ∧ msg.body.length ≤ MAX_CACHEABLE_BODYSIZE
        ∧ ∃ ci, parseResponseCacheInfo pd msg rt pt now ci0 = some ci
            ∧ ci.no_store = false ∧ ci.private_ = false))
  ∧ (isCacheable pd request_method msg.startLine.f1 msg rt pt now ci0 = none →
      onReadDoneStore pd request_method request_url msg rt pt now ci0 c = (false, c)) := by
  constructor
  · intro status
    unfold isCacheable
    split_ifs with h1 h2 h3
    · simp only [Option.isSome_none, Bool.false_eq_true, false_iff]
      rintro ⟨hm, -⟩
      exact h1 hm
    · simp only [Option.isSome_none, Bool.false_eq_true, false_iff]
      rintro ⟨-, hs, -⟩
      rcases hs with hs | hs
      · exact h2.1 hs
      · exact h2.2 hs
    · simp only [Option.isSome_none, Bool.false_eq_true, false_iff]
      rintro ⟨-, -, hb, -⟩
      omega
    · push_neg at h1 h3
      cases hp : parseResponseCacheInfo pd msg rt pt now ci0 with
      | none => simp [hp]
      | some ci =>
        dsimp only
        have hstat : status = str "200" ∨ status = str "304" := by
          by_cases hs2 : status = str "200"
          · exact Or.inl hs2
          · right
            by_contra hs3
            exact h2 ⟨hs2, hs3⟩
        by_cases hns : (ci.no_store || ci.private_) = true
        · rw [if_pos hns]
          simp only [Option.isSome_none, Bool.false_eq_true, false_iff]
          rintro ⟨-, -, -, ci', hci', hn, hv⟩
          injection hci' with hci'
          subst hci'
          rw [hn, hv] at hns
          simp at hns
        · rw [if_neg hns]
          simp only [Option.isSome_some, true_iff]
          rw [Bool.or_eq_true] at hns
          push_neg at hns
          exact ⟨h1, hstat, h3, ci, rfl,
            Bool.not_eq_true _ ▸ hns.1, Bool.not_eq_true _ ▸ hns.2⟩
  · intro h
    simp only [onReadDoneStore, h]

/-- C2: with status 304, `store_cache` updates a matching slot by
replacing the stored header lines and cache info while keeping the
stored start line and body, leaves a non-matching slot (and the whole
cache) unchanged returning false, and with status 200 it overwrites
slot key and value with the new item. -/
theorem claim_C2 (request_url : Str) (msg : HttpMessage) (ci : ResponseCacheInfo)
    (c : CacheT) (item : CacheItem) :
    ((c.slots (c.idx request_url)).key = request_url →
      (c.slots (c.idx request_url)).value = some item →
      storeCache (str "304") request_url msg ci c =
        (true, c.setSlot (c.idx request_url)
          ⟨(c.slots (c.idx request_url)).key,
            some ⟨{ item.message with headerLines := msg.headerLines }, ci⟩⟩))
  ∧ ((c.slots (c.idx request_url)).key ≠ request_url →
      storeCache (str "304") request_url msg ci c = (false, c))
  ∧ (storeCache (str "200") request_url msg ci c =
      (true, c.setSlot (c.idx request_url) ⟨request_url, some ⟨msg, ci⟩⟩)) := by
  refine ⟨?_, ?_, ?_⟩
  · intro hk hv
    simp only [storeCache]
    rw [if_neg (by decide : ¬(str "304" = str "200")), if_pos hk, hv]
  · intro hk
    simp only [storeCache]
    rw [if_neg (by decide : ¬(str "304" = str "200")), if_neg hk]
  · simp only [storeCache]
    rw [if_pos trivial]

/-- Properties of the post-scheme URL split: the path always begins
with '/', the protocol passes through, and without an explicit port
the default port is 80 for HTTP and 443 otherwise. -/
theorem urlSplit_props (proto : Protocol) (rest : Str) :
    (urlSplit proto rest).path.head? = some '/'
  ∧ (urlSplit proto rest).protocol = proto
  ∧ (restHasPort rest = false →
      (urlSplit proto rest).port =
        (if proto = Protocol.HTTP then str "80" else str "443")) := by
  unfold urlSplit restHasPort
  rcases hsp : spanNot (fun c => c = ':' || c = '/') rest with ⟨h, post⟩
  cases post with
  | nil => refine ⟨rfl, rfl, fun _ => rfl⟩
  | cons c t =>
    have hc := spanNot_snd_head (fun c => c = ':' || c = '/') rest
    rw [hsp] at hc
    rcases hc with hc | ⟨c', cs', hcc, hsat⟩
    · exact absurd hc (by simp)
    · have hsatc : (decide (c = ':') || decide (c = '/')) = true := by
        injection hcc with hc1 hc2
        exact hc1 ▸ hsat
      by_cases hcol : c = ':'
      · subst hcol
        dsimp only
        have hh : (':' : Char) = ':' := rfl
        rw [if_pos hh]
        refine ⟨?_, ?_, ?_⟩
        · rcases hsp2 : spanNot (fun c => c = '/') t with ⟨p, t2⟩
          cases t2 with
          | nil => rfl
          | cons c2 t2' =>
            have hc2 := spanNot_snd_head (fun c => c = '/') t
            rw [hsp2] at hc2
            rcases hc2 with hc2 | ⟨c3, cs3, hcc3, hsat3⟩
            · exact absurd hc2 (by simp)
            · have hs2 : (decide (c2 = '/')) = true := by
                injection hcc3 with h31 h32
                exact h31 ▸ hsat3
              simp only [decide_eq_true_eq] at hs2
              subst hs2
              rfl
        · rcases hsp2 : spanNot (fun c => c = '/') t with ⟨p, t2⟩
          cases t2 <;> rfl
        · intro hfalse
          simp at hfalse
      · simp only [Bool.or_eq_true, decide_eq_true_eq] at hsatc
        rcases hsatc with hsat1 | hsat1
        · exact absurd hsat1 hcol
        · subst hsat1
          exact ⟨rfl, rfl, fun _ => rfl⟩

/-- C9 (amended): for every input the parsed URL has a path beginning
with '/', and when the input carries no explicit port the port field
defaults to 80 for protocol HTTP and to 443 otherwise (HTTPS and NONE
both get 443); the host, however, may be empty. -/
theorem claim_C9_amended (s : Str) :
    (HttpUrl.ofStr s).path.head? = some '/'
  ∧ (hasExplicitPort s = false →
      (HttpUrl.ofStr s).port =
        (if (HttpUrl.ofStr s).protocol = Protocol.HTTP then str "80" else str "443")) := by
  have hmain : ∀ (proto : Protocol) (rest : Str),
      (urlSplit proto rest).path.head? = some '/'
    ∧ (restHasPort rest = false →
        (urlSplit proto rest).port =
          (if (urlSplit proto rest).protocol = Protocol.HTTP then str "80"
            else str "443")) := by
    intro proto rest
    refine ⟨(urlSplit_props _ _).1, fun hn => ?_⟩
    rw [(urlSplit_props _ _).2.1]
    exact (urlSplit_props _ _).2.2 hn
  by_cases h1 : isPrefixCI (str "http://") s = true
  · have e1 : HttpUrl.ofStr s = urlSplit Protocol.HTTP (s.drop 7) := by
      unfold HttpUrl.ofStr
      rw [if_pos h1]
    have e2 : hasExplicitPort s = restHasPort (s.drop 7) := by
      unfold hasExplicitPort
      rw [if_pos h1]
    rw [e1, e2]
    exact hmain _ _
  · by_cases h2 : isPrefixCI (str "https://") s = true
    · have e1 : HttpUrl.ofStr s = urlSplit Protocol.HTTPS (s.drop 8) := by
        unfold HttpUrl.ofStr
        rw [if_neg h1, if_pos h2]
      have e2 : hasExplicitPort s = restHasPort (s.drop 8) := by
        unfold hasExplicitPort
        rw [if_neg h1, if_pos h2]
      rw [e1, e2]
      exact hmain _ _
    · have e1 : HttpUrl.ofStr s = urlSplit Protocol.NONE s := by
        unfold HttpUrl.ofStr
        rw [if_neg h1, if_neg h2]
      have e2 : hasExplicitPort s = restHasPort s := by
        unfold hasExplicitPort
        rw [if_neg h1, if_neg h2]
      rw [e1, e2]
      exact hmain _ _

/-- C9 (counterexample): the claim requires a non-empty host for every
input, but the input "http://" parses to an empty host. -/
theorem claim_C9_counterexample : (HttpUrl.ofStr (str "http://")).host = [] := rfl

/-- C5 (counterexample): the claim says a Transfer-Encoding: chunked
header makes the final body format CHUNKED irrespective of header
order; feeding the parser a response whose Content-Length follows the
Transfer-Encoding: chunked header ends the header section with format
LENGTH, not CHUNKED. -/
theorem claim_C5_counterexample :
    parseRun 10 parserInit
        (str "HTTP/1.1 200 OK\r\nTransfer-Encoding: chunked\r\nContent-Length: 5\r\n\r\n12345")
      = .ok (⟨⟨⟨str "HTTP/1.1", str "200", str "OK"⟩,
          [⟨str "Transfer-Encoding", str "chunked"⟩, ⟨str "Content-Length", str "5"⟩],
          str "12345"⟩, PState.ACCEPT, BodyFormat.LENGTH, 5⟩, [])
  ∧ BodyFormat.LENGTH ≠ BodyFormat.CHUNKED := ⟨rfl, by decide⟩

/-- C5 (amended): one header line changes the body format as follows:
a Content-Length header with a successful integer extraction sets
LENGTH (even when the format was already CHUNKED, so the last
effective framing header wins), a Transfer-Encoding header containing
"chunked" sets CHUNKED, and any other line leaves the format
unchanged; only a Content-Length line writes `contentLength`. -/
theorem claim_C5_amended (p : HttpParser) (input line rest : Str) (h : Header)
    (hg : getline input = some (line, rest))
    (hne : ¬(line = [] ∨ line = ['\r']))
    (hp : parseHeaderLine line = .ok h) :
    putHeader p input = .ok ({ p with
      message := { p.message with headerLines := p.message.headerLines ++ [h] },
      format :=
        if h.key = str "Content-Length" then
          (if (readCppSizeT h.value).1 = true then BodyFormat.LENGTH else p.format)
        else if h.key = str "Transfer-Encoding"
            ∧ containsSub (str "chunked") h.value = true then
          BodyFormat.CHUNKED
        else p.format,
      contentLength :=
        if h.key = str "Content-Length" then (readCppSizeT h.value).2
        else p.contentLength }, rest) := by
  unfold putHeader
  rw [hg]
  dsimp only
  rw [if_neg hne, hp]
  dsimp only
  by_cases hk : h.key = str "Content-Length"
  · rw [if_pos hk, if_pos hk, if_pos hk]
    by_cases hr : (readCppSizeT h.value).1 = true
    · rw [if_pos hr, if_pos hr]
    · rw [if_neg hr, if_neg hr]
  · rw [if_neg hk, if_neg hk, if_neg hk]
    by_cases ht : h.key = str "Transfer-Encoding"
    · rw [if_pos ht]
      by_cases hc : containsSub (str "chunked") h.value = true
      · rw [if_pos hc, if_pos ⟨ht, hc⟩]
      · rw [if_neg hc, if_neg (fun hand => hc hand.2)]
    · rw [if_neg ht, if_neg (fun hand => ht hand.1)]

/-- C6: the claim (and the spec) say `reset()` restores format PLAIN
and contentLength 0; the source clears only the message and the state.
After parsing a request with `Content-Length: 5`, reset leaves
format LENGTH and contentLength 5, and the next bodyless request on
the kept-alive connection is consequently mis-framed: after its empty
header line the parser moves to BODY instead of ACCEPT. -/
theorem claim_C6_bug :
    (parseRun 10 parserInit (str "POST / HTTP/1.1\r\nContent-Length: 5\r\n\r\nhello")
      = .ok (⟨⟨⟨str "POST", str "/", str "HTTP/1.1"⟩,
          [⟨str "Content-Length", str "5"⟩], str "hello"⟩,
        PState.ACCEPT, BodyFormat.LENGTH, 5⟩, []))
  ∧ reset ⟨⟨⟨str "POST", str "/", str "HTTP/1.1"⟩,
        [⟨str "Content-Length", str "5"⟩], str "hello"⟩,
      PState.ACCEPT, BodyFormat.LENGTH, 5⟩
      = ⟨emptyMessage, PState.START, BodyFormat.LENGTH, 5⟩
  ∧ parseRun 2 ⟨emptyMessage, PState.START, BodyFormat.LENGTH, 5⟩
        (str "GET /x HTTP/1.1\r\n\r\n")
      = .ok (⟨⟨⟨str "GET", str "/x", str "HTTP/1.1"⟩, [], []⟩, PState.BODY,
          BodyFormat.LENGTH, 5⟩, []) := ⟨rfl, rfl, rfl⟩

theorem spanNot_no_sat (p : Char → Bool) (l rest : Str)
    (hl : ∀ c ∈ l, p c = false) (c0 : Char) (hc0 : p c0 = true) :
    spanNot p (l ++ c0 :: rest) = (l, c0 :: rest) := by
  induction l with
  | nil => simp [spanNot, hc0]
  | cons c cs ih =>
    have hc := hl c (List.mem_cons_self _ _)
    simp [spanNot, hc, ih (fun x hx => hl x (List.mem_cons_of_mem _ hx))]

theorem getline_append (line rest : Str)
    (hnl : ∀ c ∈ line, (decide (c = '\n')) = false) :
    getline (line ++ '\n' :: rest) = some (line, rest) := by
  have hsp := spanNot_no_sat (fun c => c = '\n') line rest hnl '\n' (by simp)
  cases line with
  | nil => simp [getline, spanNot]
  | cons c cs =>
    simp only [List.cons_append] at hsp ⊢
    simp only [getline]
    rw [hsp]

/-- C7 (corrected): reading a chunk-header line whose hex size is zero
appends the raw line plus a newline but leaves the parser in BODY with
contentLength 0 (the claim said it transitions to ACCEPT); ACCEPT is
reached by the following parse step, which reads the empty (CR only)
line terminating the chunked body and also appends it; a chunked
message of a single zero-size chunk followed by the blank line thus
reaches ACCEPT with the raw lines in the body. -/
theorem claim_C7_amended (m : HttpMessage) (line rest₁ : Str)
    (hnl : ∀ c ∈ line, (decide (c = '\n')) = false)
    (h0 : ¬(line = [] ∨ line = ['\r']))
    (hhex : (readCppHexSizeT line).2 = 0) :
    (putContent ⟨m, PState.BODY, BodyFormat.CHUNKED, 0⟩ (line ++ '\n' :: rest₁) =
      (⟨{ m with body := m.body ++ line ++ ['\n'] },
        PState.BODY, BodyFormat.CHUNKED, 0⟩, rest₁))
  ∧ ∀ (m' : HttpMessage) (rest₂ : Str),
      putContent ⟨m', PState.BODY, BodyFormat.CHUNKED, 0⟩ ('\r' :: '\n' :: rest₂) =
        (⟨{ m' with body := m'.body ++ ['\r'] ++ ['\n'] },
          PState.ACCEPT, BodyFormat.CHUNKED, 0⟩, rest₂) := by
  constructor
  · unfold putContent
    dsimp only
    rw [if_pos rfl, getline_append line rest₁ hnl]
    dsimp only
    rw [if_neg h0, hhex]
    rw [if_neg (by simp)]
  · intro m' rest₂
    rfl

/-- C7 (counterexample): from the CHUNKED body state with
contentLength 0, the parse step consuming the zero-size chunk header
line `0\r\n` leaves the parser in BODY, not ACCEPT. -/
theorem claim_C7_counterexample :
    parseStep ⟨⟨⟨str "HTTP/1.1", str "200", str "OK"⟩,
        [⟨str "Transfer-Encoding", str "chunked"⟩], []⟩,
      PState.BODY, BodyFormat.CHUNKED, 0⟩ (str "0\r\n\r\n")
      = .ok (⟨⟨⟨str "HTTP/1.1", str "200", str "OK"⟩,
          [⟨str "Transfer-Encoding", str "chunked"⟩], str "0\r\n"⟩,
        PState.BODY, BodyFormat.CHUNKED, 0⟩, str "\r\n")
  ∧ PState.BODY ≠ PState.ACCEPT := ⟨rfl, by decide⟩

/-- C10 (counterexample): the claim says a Content-Length header whose
value has no valid integer leaves the framing decision as if the line
had not been seen.  After a valid `Content-Length: 5`, the invalid
`Content-Length: abc` zeroes `contentLength`, so the request is
accepted with no body, while without the invalid line the five body
bytes are read. -/
theorem claim_C10_counterexample :
    parseRun 10 parserInit
        (str "POST / HTTP/1.1\r\nContent-Length: 5\r\nContent-Length: abc\r\n\r\nhello")
      = .ok (⟨⟨⟨str "POST", str "/", str "HTTP/1.1"⟩,
          [⟨str "Content-Length", str "5"⟩, ⟨str "Content-Length", str "abc"⟩], []⟩,
        PState.ACCEPT, BodyFormat.LENGTH, 0⟩, str "hello")
  ∧ parseRun 10 parserInit
        (str "POST / HTTP/1.1\r\nContent-Length: 5\r\n\r\nhello")
      = .ok (⟨⟨⟨str "POST", str "/", str "HTTP/1.1"⟩,
          [⟨str "Content-Length", str "5"⟩], str "hello"⟩,
        PState.ACCEPT, BodyFormat.LENGTH, 5⟩, []) := ⟨rfl, rfl⟩

/-- C10 (amended): a Content-Length header line whose value does not
begin with a valid integer raises no ParseError; the header is still
appended and the format is not set to LENGTH by that line, but the
failed stream extraction stores 0 into `contentLength`, cancelling the
byte count of any earlier valid Content-Length header. -/
theorem claim_C10_amended (p : HttpParser) (input line rest v : Str)
    (hg : getline input = some (line, rest))
    (hne : ¬(line = [] ∨ line = ['\r']))
    (hp : parseHeaderLine line = .ok ⟨str "Content-Length", v⟩)
    (hv : readCppSizeT v = (false, 0)) :
    putHeader p input = .ok ({ p with
      message := { p.message with
        headerLines := p.message.headerLines ++ [⟨str "Content-Length", v⟩] },
      contentLength := 0 }, rest) := by
  unfold putHeader
  rw [hg]
  dsimp only
  rw [if_neg hne, hp]
  dsimp only
  rw [if_pos rfl, hv]
  rfl

/-- C8 (amended): client validators are stripped from the outgoing
request only on a complete cache miss (no matching slot, or a non-GET
request); on the revalidation path of a hit the headers are kept, the
first If-Modified-Since and If-None-Match being overwritten with the
cached validators when the cached entry has them; when the cached
entry has no validators the client headers pass through unchanged. -/
theorem claim_C8_amended (pd : Str → Option Int) (fd : Int → Str)
    (reqMsg : HttpMessage) (c : CacheT) (now : Int) :
    (∀ h ∈ stripValidators reqMsg.headerLines,
        ¬(h.key = str "If-Modified-Since" ∨ h.key = str "If-None-Match"))
  ∧ (lookupCached reqMsg c = none →
      clientValidatorRewrite pd fd reqMsg c now
        = (none, stripValidators reqMsg.headerLines))
  ∧ (∀ item, lookupCached reqMsg c = some item →
      item.info.last_modified = none → item.info.etag = [] →
      (clientValidatorRewrite pd fd reqMsg c now).2 = reqMsg.headerLines)
  ∧ (∀ item lm, lookupCached reqMsg c = some item →
      (clientValidatorRewrite pd fd reqMsg c now).1 = none →
      item.info.last_modified = some lm → item.info.etag ≠ [] →
      (clientValidatorRewrite pd fd reqMsg c now).2 =
        replaceHeader
          (replaceHeader reqMsg.headerLines (str "If-Modified-Since") (fd lm))
          (str "If-None-Match") item.info.etag) := by
  refine ⟨?_, ?_, ?_, ?_⟩
  · intro h hmem
    unfold stripValidators at hmem
    rw [List.mem_filter] at hmem
    have hprop := hmem.2
    intro hor
    rcases hor with hk | hk <;> (rw [hk] at hprop; simp at hprop)
  · intro hl
    unfold clientValidatorRewrite
    rw [hl]
  · intro item hl hlm hetag
    unfold clientValidatorRewrite
    rw [hl]
    unfold checkCached
    dsimp only
    rw [hlm, hetag]
    split_ifs <;> simp_all
  · intro item lm hl hnone hlm hetag
    unfold clientValidatorRewrite at hnone ⊢
    rw [hl] at hnone ⊢
    unfold checkCached at hnone ⊢
    dsimp only at hnone ⊢
    rw [hlm] at hnone ⊢
    split_ifs at hnone ⊢ <;> simp_all

/-- A stale cache entry with neither validator. -/
def itemC8 : CacheItem :=
  ⟨⟨⟨str "HTTP/1.1", str "200", str "OK"⟩, [], str "old"⟩,
   { date_value := 0, request_time := 0, response_time := 0, last_modified := none,
     corrected_initial_age := 0, freshness_lifetime := 0, etag := [],
     no_cache := false, no_store := false, private_ := false }⟩

/-- A one-slot cache holding `itemC8` under the request URL. -/
def cacheC8 : CacheT := ⟨1, fun _ => 0, fun _ => ⟨str "http://origin/x", some itemC8⟩⟩

/-- A GET request carrying a client-supplied If-None-Match. -/
def reqC8 : HttpMessage :=
  ⟨⟨str "GET", str "http://origin/x", str "HTTP/1.1"⟩,
   [⟨str "Host", str "origin"⟩, ⟨str "If-None-Match", str "xyz"⟩], []⟩

/-- C8 (counterexample): a GET whose cached entry is stale and has no
validators is forwarded (the entry is dropped) with the client
supplied If-None-Match still present, contradicting the claim that a
forwarded request contains no client-supplied validators. -/
theorem claim_C8_counterexample :
    clientValidatorRewrite (fun _ => none) (fun _ => []) reqC8 cacheC8 1
      = (none, [⟨str "Host", str "origin"⟩, ⟨str "If-None-Match", str "xyz"⟩])
  ∧ (⟨str "If-None-Match", str "xyz"⟩ : Header) ∈
      (clientValidatorRewrite (fun _ => none) (fun _ => []) reqC8 cacheC8 1).2 :=
  ⟨rfl, by decide⟩

/-! ## Witness instances -/

/-- Concrete IMF-fixdate parse function used by the witnesses: it
accepts exactly one date string. -/
def pdW : Str → Option Int :=
  fun s => if s = str "Wed, 28 Feb 2018 20:51:55 GMT" then some 1519851115 else none

def cacheW : CacheT := ⟨1, fun _ => 0, fun _ => ⟨[], none⟩⟩

def msgW200 : HttpMessage :=
  ⟨⟨str "HTTP/1.1", str "200", str "OK"⟩,
   [⟨str "Date", str "Wed, 28 Feb 2018 20:51:55 GMT"⟩], str "abc"⟩

/-- A zeroed incoming info record, one possible content of the
default-initialized local of `on_read_done`. -/
def rciZero : ResponseCacheInfo := ⟨0, 0, 0, none, 0, 0, [], false, false, false⟩

theorem claim_C1_witness :
    onReadDoneStore pdW (str "POST") (str "u") msgW200 10 12 100 rciZero cacheW
      = (false, cacheW) :=
  (claim_C1 pdW (str "POST") (str "u") msgW200 10 12 100 rciZero cacheW).2 rfl

def itemW : CacheItem :=
  ⟨⟨⟨str "HTTP/1.1", str "200", str "OK"⟩, [⟨str "Etag", str "e1"⟩], str "old"⟩,
   ⟨0, 0, 0, none, 0, 0, [], false, false, false⟩⟩

def cacheW2 : CacheT := ⟨1, fun _ => 0, fun _ => ⟨str "u", some itemW⟩⟩

def msg304 : HttpMessage :=
  ⟨⟨str "HTTP/1.1", str "304", str "Not Modified"⟩, [⟨str "Date", str "d"⟩], []⟩

def rciW2 : ResponseCacheInfo := ⟨5, 1, 2, none, 0, 9, [], false, false, false⟩

theorem claim_C2_witness :
    storeCache (str "304") (str "u") msg304 rciW2 cacheW2 =
      (true, cacheW2.setSlot (cacheW2.idx (str "u"))
        ⟨(cacheW2.slots (cacheW2.idx (str "u"))).key,
          some ⟨{ itemW.message with headerLines := msg304.headerLines }, rciW2⟩⟩) :=
  (claim_C2 (str "u") msg304 rciW2 cacheW2 itemW).1 rfl rfl

def msgW3 : HttpMessage :=
  ⟨⟨str "HTTP/1.1", str "200", str "OK"⟩,
   [⟨str "Date", str "Wed, 28 Feb 2018 20:51:55 GMT"⟩, ⟨str "Age", str "3"⟩], []⟩

def ciW3 : ResponseCacheInfo :=
  ⟨1519851115, 10, 12, none, 5, 0, [], false, false, false⟩

theorem claim_C3_witness :
    (parseResponseCacheInfo pdW msgW3 10 12 100 rciZero = some ciW3)
  ∧ ciW3.corrected_initial_age
      = max (max 0 (12 - 1519851115)) (ageHeaderValue msgW3 + (12 - 10)) :=
  ⟨rfl, (claim_C3 pdW msgW3 10 12 100 rciZero).2 ciW3 rfl⟩

/-- A stand-in for the indeterminate content of the default-initialized
`ResponseCacheInfo ci;` of `on_read_done`: the chrono duration field
`freshness_lifetime` holds the arbitrary value 7 the stack may carry. -/
def rciIndet : ResponseCacheInfo := ⟨0, 0, 0, none, 0, 7, [], false, false, false⟩

/-- The info computed for the failing input: a 200 response carrying
only a Date header, with `rciIndet` as the incoming record.  No
directive applies, and the unassigned `freshness_lifetime` carries the
incoming 7, not the zero the claim states. -/
def ciW4 : ResponseCacheInfo :=
  ⟨1519851115, 10, 12, none, 2, 7, [], false, false, false⟩

theorem claim_C4_witness :
    (parseResponseCacheInfo pdW msgW200 10 12 100 rciIndet = some ciW4)
  ∧ ciW4.freshness_lifetime =
      match sMaxageOf (cacheControlOf msgW200), maxAgeOf (cacheControlOf msgW200),
          expiresOf pdW msgW200, ciW4.last_modified with
      | some s, _, _, _ => s
      | none, some m, _, _ => m
      | none, none, some e, _ => e - ciW4.date_value
      | none, none, none, some lm => Int.tdiv (100 - lm) 10
      | none, none, none, none => rciIndet.freshness_lifetime :=
  ⟨rfl, claim_C4_bug pdW msgW200 10 12 100 rciIndet ciW4 rfl⟩

def pW5 : HttpParser := ⟨emptyMessage, PState.HEADER, BodyFormat.CHUNKED, 0⟩

theorem claim_C5_witness :
    putHeader pW5 (str "Content-Length: 7\r\nX")
      = .ok (⟨⟨⟨[], [], []⟩, [⟨str "Content-Length", str "7"⟩], []⟩,
          PState.HEADER, BodyFormat.LENGTH, 7⟩, str "X") :=
  claim_C5_amended pW5 (str "Content-Length: 7\r\nX") (str "Content-Length: 7\r")
    (str "X") ⟨str "Content-Length", str "7"⟩ rfl (by decide) rfl

theorem claim_C7_witness :
    putContent ⟨emptyMessage, PState.BODY, BodyFormat.CHUNKED, 0⟩
        (str "0\r" ++ '\n' :: str "Z")
      = (⟨{ emptyMessage with body := emptyMessage.body ++ str "0\r" ++ ['\n'] },
          PState.BODY, BodyFormat.CHUNKED, 0⟩, str "Z") :=
  (claim_C7_amended emptyMessage (str "0\r") (str "Z")
    (by decide) (by decide) rfl).1

theorem claim_C8_witness :
    (clientValidatorRewrite (fun _ => none) (fun _ => []) reqC8 cacheC8 1).2
      = reqC8.headerLines :=
  (claim_C8_amended (fun _ => none) (fun _ => []) reqC8 cacheC8 1).2.2.1
    itemC8 rfl rfl rfl

theorem claim_C9_witness :
    (HttpUrl.ofStr (str "http://x/")).path.head? = some '/'
  ∧ (HttpUrl.ofStr (str "http://x/")).port =
      (if (HttpUrl.ofStr (str "http://x/")).protocol = Protocol.HTTP
        then str "80" else str "443") :=
  ⟨(claim_C9_amended (str "http://x/")).1, (claim_C9_amended (str "http://x/")).2 rfl⟩

def pW10 : HttpParser := ⟨emptyMessage, PState.HEADER, BodyFormat.LENGTH, 5⟩

theorem claim_C10_witness :
    putHeader pW10 (str "Content-Length: abc\r\nX")
      = .ok (⟨⟨⟨[], [], []⟩, [⟨str "Content-Length", str "abc"⟩], []⟩,
          PState.HEADER, BodyFormat.LENGTH, 0⟩, str "X") :=
  claim_C10_amended pW10 (str "Content-Length: abc\r\nX")
    (str "Content-Length: abc\r") (str "X") (str "abc") rfl (by decide) rfl rfl

example : getline (str "ab\r\ncd") = some (str "ab\r", str "cd") := by rfl
example : readCppSizeT (str "5") = (true, 5) := by rfl
example : readCppSizeT (str "abc") = (false, 0) := by rfl
example : readCppSizeT (str "12abc") = (true, 12) := by rfl
example : readCppHexSizeT (str "5\r") = (true, 5) := by rfl
example : readCppHexSizeT (str "0\r") = (true, 0) := by rfl
example : isPrefixCI (str "http://") (str "HTTP://x") = true := by rfl
example : containsSub (str "chunked") (str "gzip, chunked") = true := by rfl
example : lastD [1, 2, 3] 0 = 3 := by rfl
example : HttpUrl.ofStr (str "http://www.google.com/") =
    ⟨Protocol.HTTP, str "www.google.com", str "80", str "/"⟩ := by rfl
example : HttpUrl.ofStr (str "http://localhost:8000/") =
    ⟨Protocol.HTTP, str "localhost", str "8000", str "/"⟩ := by rfl
example : HttpUrl.ofStr (str "https://www.google.com/") =
    ⟨Protocol.HTTPS, str "www.google.com", str "443", str "/"⟩ := by rfl
example : HttpUrl.ofStr (str "http://") = ⟨Protocol.HTTP, [], str "80", str "/"⟩ := by rfl
example : canonicalize (str "content-length") = str "Content-Length" := by rfl
example : parseHeaderLine (str "Content-Length: 10\r") =
    .ok ⟨str "Content-Length", str "10"⟩ := by rfl
example : parseHeaderLine (str "K: \r") = .ok ⟨str "K", str "\r"⟩ := by rfl
example : parseHeaderLine (str "K:\r") = .ok ⟨str "K", []⟩ := by rfl
example :
    parseRun 10 parserInit (str "HTTP/1.1 200 OK\r\nContent-Length: 10\r\n\r\n1234567890")
      = .ok (⟨⟨⟨str "HTTP/1.1", str "200", str "OK"⟩,
          [⟨str "Content-Length", str "10"⟩], str "1234567890"⟩,
        PState.ACCEPT, BodyFormat.LENGTH, 10⟩, []) := by rfl
example :
    parseRun 10 parserInit
        (str "HTTP/1.1 200 OK\r\nTransfer-Encoding: chunked\r\n\r\n5\r\nhello\r\n0\r\n\r\n")
      = .ok (⟨⟨⟨str "HTTP/1.1", str "200", str "OK"⟩,
          [⟨str "Transfer-Encoding", str "chunked"⟩], str "5\r\nhello\r\n0\r\n\r\n"⟩,
        PState.ACCEPT, BodyFormat.CHUNKED, 0⟩, []) := by rfl
